import Mathlib

/-!
Shallow embedding of `src/x509_helper_fetch.cc` from cvmfs-x509-helper.

The source file has three functions:

* `GetProxyFileFromEnv` (lines 26-74): scans `/proc/<pid>/environ` byte by
  byte for the pattern `"\0X509_USER_PROXY="` and copies the following bytes
  (up to the next NUL) into a caller-supplied buffer of size `path_len`.
* `GetProxyFileInternal` (lines 82-160): determines the candidate path
  (scanned value or the fallback `/tmp/x509up_u<uid>`), transiently raises
  privilege, enters the target's root/cwd, opens the file as the target
  uid/gid, and restores everything, aborting when the root reversal fails.
* `GetX509Proxy` (lines 163-187): calls `GetProxyFileInternal`, reads the
  whole file in 1024-byte chunks into the caller's string, rewinds the
  handle and returns it.

Process-global state (effective ids, root, cwd) is modelled by explicit
state passing; syscalls whose success depends on the outside world
(`open`, `fopen`, `chdir`, `chroot`, `fchdir`) are given success oracles in
a `World` record, while `seteuid`/`setegid` follow the POSIX/Linux rule
(an unprivileged process may set the effective id to the real, effective
or saved id; a process with effective uid 0 may set anything).  The
`abort()` calls are modelled by a dedicated result constructor.
-/

/-- The NUL character: the entry separator inside `/proc/<pid>/environ`. -/
def NUL : Char := Char.ofNat 0

/-- Linux PATH_MAX, the size of every path buffer in the source. -/
def PATH_MAX : Nat := 4096

/-- The environment variable name the scanner looks for. -/
def proxyKey : List Char := "X509_USER_PROXY".toList

/-- The variable name together with `'='`: `"X509_USER_PROXY="`. -/
def patEq : List Char := proxyKey ++ ['=']

/-- The matcher pattern of line 32, `"\0X509_USER_PROXY="`: the leading NUL
makes the key match only at an entry boundary.  Its length is the source's
`X509_USER_PROXY_LEN = strlen("X509_USER_PROXY=") + 1 = 17` (line 33). -/
def pat : List Char := NUL :: patEq

/-- The scanning loop of `GetProxyFileFromEnv` (lines 55-68), one step per
`fgetc` result.  `keyIdx` is the source's `key_idx`; `acc` holds the value
bytes stored in `path` so far, in reverse (the source's `idx` is
`acc.length`).  End of the list is `EOF`.  A `none` result is the loop
ending with `set_env == false` (EOF, or the value hitting the
`idx >= path_len - 1` bound); `some v` is `set_env == true` with `v` the
bytes written to the buffer. -/
def envScan (pathLen : Nat) : List Char → Nat → List Char → Option (List Char)
  | [], _, _ => none
  | c :: rest, keyIdx, acc =>
    if keyIdx = pat.length then
      if pathLen - 1 ≤ acc.length then none
      else if c = NUL then some acc.reverse
      else envScan pathLen rest keyIdx (c :: acc)
    else if pat.get? keyIdx = some c then envScan pathLen rest (keyIdx + 1) acc
    else envScan pathLen rest 0 acc

/-- Scan of a whole environ file: line 55 initialises `c = '\0'` before the
first `fgetc`, so the processed stream is `NUL :: bytes` with `key_idx = 0`
and an empty value buffer. -/
def scanEnvFile (pathLen : Nat) (bytes : List Char) : Option (List Char) :=
  envScan pathLen (NUL :: bytes) 0 []

/-- How `snprintf`'s `%d` renders the 32-bit ids the source passes to it
(lines 35, 89, 101, 107): `uid_t`/`pid_t` are 32-bit on Linux and `%d`
reinterprets the value as a signed 32-bit integer, so values of at least
`2^31` print as negative numbers. -/
def fmtD32 (n : Nat) : List Char :=
  let m := n % 4294967296
  if m < 2147483648 then Nat.toDigits 10 m
  else '-' :: Nat.toDigits 10 (4294967296 - m)

/-- The string `"/proc/<pid>/environ"` formatted on line 35. -/
def procEnvironPath (pid : Nat) : List Char :=
  "/proc/".toList ++ fmtD32 pid ++ "/environ".toList

/-- The string `"/proc/<pid>/root"` formatted on line 101. -/
def procRootPath (pid : Nat) : List Char :=
  "/proc/".toList ++ fmtD32 pid ++ "/root".toList

/-- The string `"/proc/<pid>/cwd"` formatted on line 107. -/
def procCwdPath (pid : Nat) : List Char :=
  "/proc/".toList ++ fmtD32 pid ++ "/cwd".toList

/-- The fallback candidate path `"/tmp/x509up_u<uid>"` formatted on line 89. -/
def fallbackPath (uid : Nat) : List Char :=
  "/tmp/x509up_u".toList ++ fmtD32 uid

/-- Per-process credentials: real, effective and saved user and group ids. -/
structure Cred where
  ruid : Nat
  euid : Nat
  suid : Nat
  rgid : Nat
  egid : Nat
  sgid : Nat
deriving DecidableEq

/-- `seteuid(x)`: succeeds (setting the effective uid) iff the caller is
privileged (effective uid 0) or `x` is one of the real, effective or saved
uid; otherwise it fails and changes nothing.  The source ignores the return
value everywhere. -/
def seteuid (x : Nat) (c : Cred) : Cred :=
  if c.euid = 0 ∨ x = c.ruid ∨ x = c.euid ∨ x = c.suid then { c with euid := x }
  else c

/-- `setegid(x)`: succeeds iff the caller is privileged (effective uid 0) or
`x` is one of the real, effective or saved gid. -/
def setegid (x : Nat) (c : Cred) : Cred :=
  if c.euid = 0 ∨ x = c.rgid ∨ x = c.egid ∨ x = c.sgid then { c with egid := x }
  else c

/-- The process-global state the fetch mutates: credentials, the filesystem
root and the current working directory (directories are abstract ids). -/
structure PState where
  cred : Cred
  root : Nat
  cwd : Nat
deriving DecidableEq

/-- The outside world of one call: the readable content of the target's
environ file (`none` = `fopen` fails), success oracles for each
world-dependent syscall of `GetProxyFileInternal` in source order, the
directories named by `/proc/<pid>/root` and `/proc/<pid>/cwd`, and the file
content `fopen` yields for a candidate path (`none` = open fails). -/
structure World where
  environ : Option (List Char)
  openRootOk : Bool
  openCwdOk : Bool
  chdirOk : Bool
  chrootOk : Bool
  fchdirEarlyOk : Bool
  fchdirRootOk : Bool
  rechrootOk : Bool
  fchdirCwdOk : Bool
  targetRoot : Nat
  targetCwd : Nat
  fileAt : List Char → Option (List Char)

/-- The value component of `GetProxyFileFromEnv` (lines 26-74): `none` when
the `snprintf` of line 35 would overflow, when the environ file cannot be
opened (line 47), or when the scan fails; `some v` when the scan stores `v`
in the caller's buffer. -/
def envValue (w : World) (pid pathLen : Nat) : Option (List Char) :=
  if pathLen ≤ (procEnvironPath pid).length then none
  else
    match w.environ with
    | none => none
    | some bytes => scanEnvFile pathLen bytes

/-- The state component of `GetProxyFileFromEnv`: on the early `snprintf`
overflow (line 39) nothing has been touched; on every other exit the
function has run `seteuid(0)` (line 44) followed by `seteuid(olduid)`
(line 50 or 70). -/
def envScanState (w : World) (pid pathLen : Nat) (s : PState) : PState :=
  if pathLen ≤ (procEnvironPath pid).length then s
  else { s with cred := seteuid s.cred.euid (seteuid 0 s.cred) }

/-- `GetProxyFileFromEnv` as a pair of its returned value and the state it
leaves behind. -/
def GetProxyFileFromEnv (w : World) (pid pathLen : Nat) (s : PState) :
    Option (List Char) × PState :=
  (envValue w pid pathLen, envScanState w pid pathLen s)

/-- The candidate path `GetProxyFileInternal` ends up with in `path` after
lines 85-93: the scanned value if the scanner succeeded, otherwise the
fallback `/tmp/x509up_u<uid>`. -/
def candidatePath (w : World) (pid uid : Nat) : List Char :=
  match envValue w pid PATH_MAX with
  | some p => p
  | none => fallbackPath uid

/-- A libc `FILE` handle on a regular file: its full content plus the
current read position. -/
structure FileHandle where
  content : List Char
  pos : Nat
deriving DecidableEq

/-- Result of `GetProxyFileInternal`: either the process called `abort()`
(lines 135, 154), or it returned a `FILE*` (possibly NULL) leaving the
process state behind. -/
inductive FetchResult where
  | aborted : FetchResult
  | ret : Option FileHandle → PState → FetchResult
deriving DecidableEq

/-- Lines 94-159 of `GetProxyFileInternal`, from the point where `path`
holds the candidate path.  Mirrors the source exactly:

* lines 100-111: format `/proc/<pid>/root` and `/proc/<pid>/cwd`, failing
  (NULL) on overflow;
* lines 113-117: snapshot `olduid`/`oldgid`, `seteuid(0)`;
* lines 119-124: open descriptors to the current root and cwd, on failure
  restore the effective uid and return NULL;
* lines 128-131: `chdir("/proc/<pid>/cwd")`; on failure `can_chroot` is
  false and no namespace mutation is attempted;
* lines 132-140: if `can_chroot`, `chroot("/proc/<pid>/root")`; on failure
  `fchdir(fd)` (the saved ROOT descriptor — not the saved cwd), aborting
  when even that fails, then restore the uid and return NULL;
* lines 142-145: `setegid(gid)`, `seteuid(uid)`, `fopen(path, "r")`;
* lines 147-155: `seteuid(0)`; if the root was changed, reverse it via
  `fchdir(fd); chroot("."); fchdir(fd2)`, aborting if any step fails;
* lines 156-158: `setegid(oldgid)`, `seteuid(olduid)`, return the handle. -/
def GetProxyFileWithPath (w : World) (pid uid gid : Nat) (path : List Char)
    (s : PState) : FetchResult :=
  if PATH_MAX ≤ (procRootPath pid).length then .ret none s
  else if PATH_MAX ≤ (procCwdPath pid).length then .ret none s
  else
    let olduid := s.cred.euid
    let oldgid := s.cred.egid
    let s1 : PState := { s with cred := seteuid 0 s.cred }
    if w.openRootOk = false ∨ w.openCwdOk = false then
      .ret none { s1 with cred := seteuid olduid s1.cred }
    else
      let fdRoot := s1.root
      let fdCwd := s1.cwd
      let canChroot := w.chdirOk
      let s2 : PState := if w.chdirOk then { s1 with cwd := w.targetCwd } else s1
      if canChroot = true ∧ w.chrootOk = false then
        if w.fchdirEarlyOk = false then .aborted
        else .ret none { s2 with cwd := fdRoot, cred := seteuid olduid s2.cred }
      else
        let s3 : PState := if canChroot then { s2 with root := w.targetRoot } else s2
        let s4 : PState := { s3 with cred := setegid gid s3.cred }
        let s5 : PState := { s4 with cred := seteuid uid s4.cred }
        let fp : Option FileHandle := (w.fileAt path).map fun c => ⟨c, 0⟩
        let s6 : PState := { s5 with cred := seteuid 0 s5.cred }
        if canChroot = true ∧
            (w.fchdirRootOk = false ∨ w.rechrootOk = false ∨ w.fchdirCwdOk = false) then
          .aborted
        else
          let s7 : PState := if canChroot then { s6 with root := fdRoot, cwd := fdCwd } else s6
          let s8 : PState := { s7 with cred := setegid oldgid s7.cred }
          .ret fp { s8 with cred := seteuid olduid s8.cred }

/-- `GetProxyFileInternal` (lines 82-160): run the environment scanner, fall
back to `/tmp/x509up_u<uid>` (with the line-89 `snprintf` overflow check)
when it fails, then open the candidate path with the privilege/namespace
dance of lines 94-159. -/
def GetProxyFileInternal (w : World) (pid uid gid : Nat) (s : PState) : FetchResult :=
  let s0 := envScanState w pid PATH_MAX s
  match envValue w pid PATH_MAX with
  | some p => GetProxyFileWithPath w pid uid gid p s0
  | none =>
    if PATH_MAX ≤ (fallbackPath uid).length then .ret none s0
    else GetProxyFileWithPath w pid uid gid (fallbackPath uid) s0

/-- `fread(buf, 1, n, f)` on a regular file: the next `min n remaining`
bytes, advancing the position. -/
def freadChunk (f : FileHandle) (n : Nat) : List Char × FileHandle :=
  let chunk := (f.content.drop f.pos).take n
  (chunk, { f with pos := f.pos + chunk.length })

/-- The source's `kBufSize` (line 176). -/
def kBufSize : Nat := 1024

/-- The do/while read loop of lines 179-183: read a `kBufSize` chunk, append
it to the accumulated string, and continue while the chunk was full.  The
fuel argument only bounds the recursion; `readAll` supplies enough fuel for
the loop to run to its real termination. -/
def readLoop : Nat → FileHandle → List Char → List Char × FileHandle
  | 0, f, acc => (acc, f)
  | fuel + 1, f, acc =>
    let r := freadChunk f kBufSize
    let acc1 := acc ++ r.1
    if r.1.length = kBufSize then readLoop fuel r.2 acc1 else (acc1, r.2)

/-- The whole read loop on a handle (`proxy` was cleared on line 175, so the
accumulator starts empty). -/
def readAll (f : FileHandle) : List Char × FileHandle :=
  readLoop (f.content.length + 1) f []

/-- `rewind(fp)` (line 185). -/
def rewind (f : FileHandle) : FileHandle := { f with pos := 0 }

/-- Result of `GetX509Proxy`: abort propagated from the fetch, or a return
carrying the `FILE*` (possibly NULL), the final content of the caller's
`proxy` string, and the final process state. -/
inductive ProxyResult where
  | aborted : ProxyResult
  | ret : Option FileHandle → List Char → PState → ProxyResult
deriving DecidableEq

/-- `GetX509Proxy` (lines 163-187): on a NULL fetch return NULL with the
caller's `proxy` string untouched; otherwise clear `proxy`, read the whole
file into it, rewind the handle and return it. -/
def GetX509Proxy (w : World) (pid uid gid : Nat) (proxy : List Char)
    (s : PState) : ProxyResult :=
  match GetProxyFileInternal w pid uid gid s with
  | .aborted => .aborted
  | .ret none s1 => .ret none proxy s1
  | .ret (some f) s1 =>
    let r := readAll f
    .ret (some (rewind r.2)) r.1 s1

/-- A `/proc/<pid>/environ` record: each entry followed by its terminating
NUL byte. -/
def flattenEnv : List (List Char) → List Char
  | [] => []
  | e :: es => e ++ NUL :: flattenEnv es

/-- A well-formed environment entry `KEY=VALUE`: nonempty, free of NUL
bytes, containing an `'='`, and with a nonempty key (it does not start with
`'='`). -/
def wfEntry (e : List Char) : Prop :=
  e ≠ [] ∧ NUL ∉ e ∧ '=' ∈ e ∧ e.head? ≠ some '='

instance (e : List Char) : Decidable (wfEntry e) := by
  unfold wfEntry; infer_instance

/-- The key of an entry: the characters before the first `'='`. -/
def entryKey (e : List Char) : List Char := e.takeWhile (· != '=')

/-- The value of an entry: the characters after the first `'='`. -/
def entryVal (e : List Char) : List Char := (e.dropWhile (· != '=')).tail

/-- Reference semantics of the scanner, as the spec describes it: tokenize
the record into entries, take the first entry whose key is exactly
`X509_USER_PROXY`, and return its value when it fits the buffer (value
length at most `pathLen - 2`, the bound enforced by line 61). -/
def envLookupRef (pathLen : Nat) : List (List Char) → Option (List Char)
  | [] => none
  | e :: es =>
    if entryKey e = proxyKey then
      if (entryVal e).length < pathLen - 1 then some (entryVal e) else none
    else envLookupRef pathLen es

/-- A standard post-exec credential set: saved ids equal effective ids. -/
def cred0 : Cred := ⟨1000, 1000, 1000, 500, 500, 500⟩

/-- A sample initial process state whose root and cwd differ. -/
def state0 : PState := ⟨cred0, 7, 8⟩

/-- A world where the target's environ is unreadable and every syscall
succeeds; the candidate file holds the two bytes "ab". -/
def wEnvNone : World :=
  ⟨none, true, true, true, true, true, true, true, true, 30, 31,
   fun _ => some ['a', 'b']⟩

/-- A world where `chdir` into the target's cwd succeeds but `chroot` fails
(e.g. for lack of capability); the early `fchdir(fd)` recovery succeeds. -/
def wChrootFail : World :=
  ⟨none, true, true, true, false, true, true, true, true, 30, 31,
   fun _ => some ['a', 'b']⟩

/-- A world where `chdir` into the target's cwd fails, so the namespace
mutation is skipped entirely. -/
def wChdirFail : World :=
  ⟨none, true, true, false, true, true, true, true, true, 30, 31,
   fun _ => some ['a', 'b']⟩

/-- A world where the namespace is entered but reversing the root change
fails at `fchdir(fd)`. -/
def wRevFail : World :=
  ⟨none, true, true, true, true, true, false, true, true, 30, 31,
   fun _ => some ['a', 'b']⟩

/-- A world where no candidate file exists at any path. -/
def wNoFile : World :=
  ⟨none, true, true, true, true, true, true, true, true, 30, 31, fun _ => none⟩

/-- A world where `chdir` succeeds, `chroot` fails, and the recovery
`fchdir(fd)` of line 133 fails as well. -/
def wEarlyAbort : World :=
  ⟨none, true, true, true, false, false, true, true, true, 30, 31, fun _ => none⟩

/-- A world whose environ holds a single X509_USER_PROXY entry with a
4095-byte value. -/
def wLongVal : World :=
  ⟨some (flattenEnv [patEq ++ List.replicate 4095 'b']), true, true, true, true,
   true, true, true, true, 30, 31, fun _ => none⟩

theorem pat_length : pat.length = 17 := by decide

theorem pat_get_zero : pat.get? 0 = some NUL := by decide

/-- Consuming any NUL-free bytes in key state 0 stays in state 0. -/
theorem envScan_state_zero (pl : Nat) (xs : List Char) (hx : NUL ∉ xs) :
    ∀ ys acc, envScan pl (xs ++ ys) 0 acc = envScan pl ys 0 acc := by
  induction xs with
  | nil => intro ys acc; rfl
  | cons c xs ih =>
    intro ys acc
    have hc : c ≠ NUL := fun h => hx (h ▸ List.mem_cons_self c xs)
    have hne : NUL ∉ xs := fun h => hx (List.mem_cons_of_mem c h)
    rw [List.cons_append, envScan]
    rw [if_neg (by rw [pat_length]; omega)]
    rw [if_neg (by rw [pat_get_zero]; simp; exact fun h => hc h.symm)]
    exact ih hne ys acc

/-- From key state 1, consuming the 16 characters of "X509_USER_PROXY="
advances the matcher to the extraction state 17. -/
theorem envScan_key (pl : Nat) (tail : List Char) (acc : List Char) :
    envScan pl (patEq ++ tail) 1 acc = envScan pl tail 17 acc := rfl

/-- The extraction loop: from state 17, a NUL-free value followed by a NUL
is returned when it fits the buffer bound of line 61, and rejected
otherwise. -/
theorem envScan_value (pl : Nat) (v : List Char) (hv : NUL ∉ v) :
    ∀ rest acc, envScan pl (v ++ NUL :: rest) 17 acc =
      if acc.length + v.length < pl - 1 then some (acc.reverse ++ v) else none := by
  induction v with
  | nil =>
    intro rest acc
    rw [List.nil_append, envScan, if_pos (by rw [pat_length])]
    by_cases h : pl - 1 ≤ acc.length
    · rw [if_pos h, if_neg (by omega)]
    · rw [if_neg h, if_pos rfl, if_pos (by simp; omega)]
      simp
  | cons c v ih =>
    intro rest acc
    have hc : c ≠ NUL := fun h => hv (h ▸ List.mem_cons_self c v)
    have hv' : NUL ∉ v := fun h => hv (List.mem_cons_of_mem c h)
    rw [List.cons_append, envScan, if_pos (by rw [pat_length])]
    by_cases h : pl - 1 ≤ acc.length
    · rw [if_pos h, if_neg (by simp; omega)]
    · rw [if_neg h, if_neg hc, ih hv' rest (c :: acc)]
      by_cases h2 : acc.length + (c :: v).length < pl - 1
      · rw [if_pos (by simp at h2 ⊢; omega), if_pos h2]
        simp
      · rw [if_neg (by simp at h2 ⊢; omega), if_neg h2]

/-- Scanning a NUL-free entry that neither completes the key pattern nor
ends while still matching it brings the matcher back to state 1 (a freshly
consumed NUL) after the entry's terminating NUL. -/
theorem envScan_skip (pl : Nat) :
    ∀ (e : List Char) (j : Nat), 1 ≤ j → j < pat.length → NUL ∉ e →
      ¬ pat.drop j <+: e → ¬ e <+: pat.drop j →
      ∀ rest acc, envScan pl (e ++ NUL :: rest) j acc = envScan pl rest 1 acc := by
  intro e
  induction e with
  | nil =>
    intro j _ _ _ _ h2 rest acc
    exact absurd ⟨pat.drop j, rfl⟩ h2
  | cons c e ih =>
    intro j hj1 hj2 hnul h1 h2 rest acc
    have hc : c ≠ NUL := fun h => hnul (h ▸ List.mem_cons_self c e)
    have hnul' : NUL ∉ e := fun h => hnul (List.mem_cons_of_mem c h)
    rw [List.cons_append, envScan, if_neg (by omega)]
    by_cases hm : pat.get? j = some c
    · rw [if_pos hm]
      have hpj : pat[j] = c := by
        have := List.getElem?_eq_getElem hj2
        rw [List.get?_eq_getElem?, this] at hm
        exact Option.some.inj hm
      have hdrop : pat.drop j = c :: pat.drop (j + 1) := by
        rw [List.drop_eq_getElem_cons hj2, hpj]
      rw [hdrop] at h1 h2
      have h1' : ¬ pat.drop (j + 1) <+: e := by
        intro h; exact h1 (List.cons_prefix_cons.mpr ⟨rfl, h⟩)
      have h2' : ¬ e <+: pat.drop (j + 1) := by
        intro h; exact h2 (List.cons_prefix_cons.mpr ⟨rfl, h⟩)
      by_cases hlt : j + 1 < pat.length
      · exact ih (j + 1) (by omega) hlt hnul' h1' h2' rest acc
      · exfalso
        have : pat.drop (j + 1) = [] := by
          apply List.drop_eq_nil_of_le; omega
        rw [this] at h1'
        exact h1' ⟨e, rfl⟩
    · rw [if_neg hm, envScan_state_zero pl e hnul', envScan,
        if_neg (by rw [pat_length]; omega), if_pos pat_get_zero]

/-- Decomposition of an entry containing an `'='` into key, `'='`, value. -/
theorem entry_decomp : ∀ e : List Char, '=' ∈ e →
    entryKey e ++ '=' :: entryVal e = e := by
  intro e
  induction e with
  | nil => intro h; cases h
  | cons c e ih =>
    intro h
    by_cases hc : c = '='
    · subst hc
      simp [entryKey, entryVal, List.takeWhile_cons, List.dropWhile_cons]
    · have h' : '=' ∈ e := by
        rcases List.mem_cons.mp h with h | h
        · exact absurd h.symm hc
        · exact h
      have hb : (c != '=') = true := by simp [hc]
      simp only [entryKey, entryVal, List.takeWhile_cons, List.dropWhile_cons, hb,
        if_true, List.cons_append]
      rw [show (e.takeWhile (· != '=')) = entryKey e from rfl,
        show ((e.dropWhile (· != '=')).tail) = entryVal e from rfl, ih h']

/-- No `'='` occurs in an entry's key. -/
theorem entryKey_no_eq (e : List Char) : '=' ∉ entryKey e := by
  intro h
  have := List.mem_takeWhile_imp h
  simp at this

/-- For two strings of shape `key ++ '=' :: value` with `'='`-free keys, a
prefix relation forces the keys to coincide. -/
theorem key_determined : ∀ (k₁ : List Char) v₁ k₂ v₂, '=' ∉ k₁ → '=' ∉ k₂ →
    (k₁ ++ '=' :: v₁) <+: (k₂ ++ '=' :: v₂) → k₁ = k₂ := by
  intro k₁
  induction k₁ with
  | nil =>
    intro v₁ k₂ v₂ _ hk₂ h
    cases k₂ with
    | nil => rfl
    | cons b k₂ =>
      exfalso
      rw [List.nil_append, List.cons_append] at h
      have := (List.cons_prefix_cons.mp h).1
      exact hk₂ (this ▸ List.mem_cons_self b k₂)
  | cons a k₁ ih =>
    intro v₁ k₂ v₂ hk₁ hk₂ h
    cases k₂ with
    | nil =>
      exfalso
      rw [List.nil_append, List.cons_append] at h
      have := (List.cons_prefix_cons.mp h).1
      exact hk₁ (this ▸ List.mem_cons_self a k₁)
    | cons b k₂ =>
      rw [List.cons_append, List.cons_append] at h
      obtain ⟨hab, h⟩ := List.cons_prefix_cons.mp h
      have hk₁' : '=' ∉ k₁ := fun hh => hk₁ (List.mem_cons_of_mem a hh)
      have hk₂' : '=' ∉ k₂ := fun hh => hk₂ (List.mem_cons_of_mem b hh)
      rw [hab, ih v₁ k₂ v₂ hk₁' hk₂' h]

theorem proxyKey_no_eq : '=' ∉ proxyKey := by decide

theorem patEq_shape : patEq = proxyKey ++ '=' :: [] := rfl

/-- A well-formed entry whose key is exactly `X509_USER_PROXY` starts with
`"X509_USER_PROXY="`. -/
theorem wf_match (e : List Char) (h : wfEntry e) (hk : entryKey e = proxyKey) :
    e = patEq ++ entryVal e := by
  conv_lhs => rw [← entry_decomp e h.2.2.1]
  rw [hk, patEq_shape]
  simp

/-- A well-formed entry whose key is not `X509_USER_PROXY` is
prefix-incomparable with `"X509_USER_PROXY="`. -/
theorem wf_skip_hyps (e : List Char) (h : wfEntry e) (hk : entryKey e ≠ proxyKey) :
    ¬ pat.drop 1 <+: e ∧ ¬ e <+: pat.drop 1 := by
  have hdec := entry_decomp e h.2.2.1
  have hd1 : pat.drop 1 = proxyKey ++ '=' :: [] := rfl
  constructor
  · intro hp
    rw [hd1, ← hdec] at hp
    exact hk (key_determined proxyKey [] (entryKey e) (entryVal e)
      proxyKey_no_eq (entryKey_no_eq e) hp).symm
  · intro hp
    rw [hd1, ← hdec] at hp
    exact hk (key_determined (entryKey e) (entryVal e) proxyKey []
      (entryKey_no_eq e) proxyKey_no_eq hp)

theorem scanEnvFile_step (pl : Nat) (bytes : List Char) :
    scanEnvFile pl bytes = envScan pl bytes 1 [] := rfl

/-- The byte-wise matcher agrees with the reference tokenizer on every
well-formed environment record: first entry with key exactly
`X509_USER_PROXY` wins, a key merely containing or ending with the name
does not match, and the value is returned iff it fits the buffer. -/
theorem scan_eq_lookup (pl : Nat) :
    ∀ entries : List (List Char), (∀ e ∈ entries, wfEntry e) →
      scanEnvFile pl (flattenEnv entries) = envLookupRef pl entries := by
  intro entries
  induction entries with
  | nil => intro _; rfl
  | cons e es ih =>
    intro hwf
    have he : wfEntry e := hwf e (List.mem_cons_self e es)
    have hes : ∀ x ∈ es, wfEntry x := fun x hx => hwf x (List.mem_cons_of_mem e hx)
    rw [scanEnvFile_step, flattenEnv]
    by_cases hk : entryKey e = proxyKey
    · have hv : NUL ∉ entryVal e := by
        intro hx
        apply he.2.1
        rw [← entry_decomp e he.2.2.1]
        exact List.mem_append_right _ (List.mem_cons_of_mem _ hx)
      have hsplit : (e ++ NUL :: flattenEnv es : List Char) =
          patEq ++ (entryVal e ++ NUL :: flattenEnv es) := by
        rw [← List.append_assoc, ← wf_match e he hk]
      rw [hsplit, envScan_key, envScan_value pl (entryVal e) hv]
      rw [envLookupRef, if_pos hk]
      by_cases hfit : (entryVal e).length < pl - 1
      · rw [if_pos (by simpa using hfit), if_pos hfit]
        simp
      · rw [if_neg (by simpa using hfit), if_neg hfit]
    · have hnul : NUL ∉ e := he.2.1
      obtain ⟨h1, h2⟩ := wf_skip_hyps e he hk
      rw [envScan_skip pl e 1 (by omega) (by rw [pat_length]; omega) hnul h1 h2]
      rw [envLookupRef, if_neg hk, ← scanEnvFile_step]
      exact ih hes

theorem flattenEnv_append (a b : List (List Char)) :
    flattenEnv (a ++ b) = flattenEnv a ++ flattenEnv b := by
  induction a with
  | nil => rfl
  | cons e a ih => simp [flattenEnv, ih]

/-- Skipping a block of well-formed, non-matching entries. -/
theorem envScan_skip_entries (pl : Nat) :
    ∀ pre : List (List Char), (∀ e ∈ pre, wfEntry e ∧ entryKey e ≠ proxyKey) →
      ∀ tail, envScan pl (flattenEnv pre ++ tail) 1 [] = envScan pl tail 1 [] := by
  intro pre
  induction pre with
  | nil => intro _ tail; rfl
  | cons e pre ih =>
    intro h tail
    obtain ⟨he, hk⟩ := h e (List.mem_cons_self e pre)
    obtain ⟨h1, h2⟩ := wf_skip_hyps e he hk
    rw [flattenEnv, List.append_assoc, List.cons_append]
    rw [envScan_skip pl e 1 (by omega) (by rw [pat_length]; omega) he.2.1 h1 h2]
    exact ih (fun x hx => h x (List.mem_cons_of_mem e hx)) tail

/-- Decimal digit strings of numbers below `10 ^ k` have at most `k`
characters (`k ≥ 1`). -/
theorem toDigitsCore_length_le :
    ∀ (fuel n k : Nat) (ds : List Char), 1 ≤ k → n < 10 ^ k →
      (Nat.toDigitsCore 10 fuel n ds).length ≤ k + ds.length := by
  intro fuel
  induction fuel with
  | zero => intro n k ds hk _; simp [Nat.toDigitsCore]
  | succ fuel ih =>
    intro n k ds hk hn
    rw [Nat.toDigitsCore]
    by_cases hz : n / 10 = 0
    · simp only [hz, if_true]
      simp
      omega
    · simp only [hz, if_false]
      have h10 : 10 ≤ n := by
        by_contra hlt
        push_neg at hlt
        interval_cases n <;> simp_all
      have hk2 : 2 ≤ k := by
        by_contra hlt
        push_neg at hlt
        interval_cases k <;> omega
      have hlt : n / 10 < 10 ^ (k - 1) := by
        rw [Nat.div_lt_iff_lt_mul (by norm_num)]
        calc n < 10 ^ k := hn
        _ = 10 ^ (k - 1) * 10 := by
            rw [← pow_succ]
            congr 1
            omega
      have := ih (n / 10) (k - 1) (Nat.digitChar (n % 10) :: ds) (by omega) hlt
      calc (Nat.toDigitsCore 10 fuel (n / 10) (Nat.digitChar (n % 10) :: ds)).length
          ≤ (k - 1) + (Nat.digitChar (n % 10) :: ds).length := this
        _ ≤ k + ds.length := by simp; omega

theorem toDigits_length_le (n : Nat) (h : n < 10 ^ 10) :
    (Nat.toDigits 10 n).length ≤ 10 := by
  have := toDigitsCore_length_le (n + 1) n 10 [] (by omega) h
  simpa [Nat.toDigits] using this

/-- The `%d` rendering of a 32-bit id has at most 11 characters. -/
theorem fmtD32_length_le (n : Nat) : (fmtD32 n).length ≤ 11 := by
  rw [fmtD32]
  have hm : n % 4294967296 < 4294967296 := Nat.mod_lt _ (by norm_num)
  by_cases h : n % 4294967296 < 2147483648
  · simp only [h, if_true]
    have := toDigits_length_le (n % 4294967296) (by norm_num; omega)
    omega
  · simp only [h, if_false]
    have : 4294967296 - n % 4294967296 < 10 ^ 10 := by norm_num; omega
    have := toDigits_length_le _ this
    simp
    omega

theorem procEnvironPath_fits (pid : Nat) : ¬ PATH_MAX ≤ (procEnvironPath pid).length := by
  have := fmtD32_length_le pid
  simp [procEnvironPath, PATH_MAX]
  omega

theorem procRootPath_fits (pid : Nat) : ¬ PATH_MAX ≤ (procRootPath pid).length := by
  have := fmtD32_length_le pid
  simp [procRootPath, PATH_MAX]
  omega

theorem procCwdPath_fits (pid : Nat) : ¬ PATH_MAX ≤ (procCwdPath pid).length := by
  have := fmtD32_length_le pid
  simp [procCwdPath, PATH_MAX]
  omega

theorem fallbackPath_fits (uid : Nat) : ¬ PATH_MAX ≤ (fallbackPath uid).length := by
  have := fmtD32_length_le uid
  simp [fallbackPath, PATH_MAX]
  omega

/-- Raising the effective uid to 0 and setting it straight back to the old
value always restores the credentials exactly (either the raise worked and
the restore is privileged, or nothing ever changed). -/
theorem seteuid_raise_restore (c : Cred) : seteuid c.euid (seteuid 0 c) = c := by
  cases c with
  | mk ru eu su rg eg sg =>
    simp only [seteuid]
    split_ifs <;> simp_all

set_option maxHeartbeats 1600000 in
/-- The full drop/restore chain of lines 117-157 restores the credentials
exactly, provided the saved ids match the initial effective ids (the state
every exec leaves behind). -/
theorem cred_chain_restore (c : Cred) (uid gid : Nat)
    (hsu : c.suid = c.euid) (hsg : c.sgid = c.egid) :
    seteuid c.euid (setegid c.egid (seteuid 0
      (seteuid uid (setegid gid (seteuid 0 c))))) = c := by
  cases c with
  | mk ru eu su rg eg sg =>
    simp only at hsu hsg
    subst hsu hsg
    simp only [seteuid, setegid]
    split_ifs <;> simp_all

theorem envScanState_id (w : World) (pid pl : Nat) (s : PState) :
    envScanState w pid pl s = s := by
  rw [envScanState]
  split_ifs
  · rfl
  · rw [seteuid_raise_restore]

/-- Characterisation of the read loop: with enough fuel it consumes the
rest of the file and leaves the position at the end. -/
theorem readLoop_spec :
    ∀ (fuel : Nat) (f : FileHandle) (acc : List Char),
      f.pos ≤ f.content.length → f.content.length - f.pos ≤ fuel →
      readLoop fuel f acc = (acc ++ f.content.drop f.pos, ⟨f.content, f.content.length⟩) := by
  intro fuel
  induction fuel with
  | zero =>
    intro f acc hpos hrem
    have hp : f.pos = f.content.length := by omega
    rw [readLoop]
    have : f.content.drop f.pos = [] := List.drop_eq_nil_of_le (by omega)
    rw [this, List.append_nil]
    cases f with
    | mk content pos => simp_all
  | succ fuel ih =>
    intro f acc hpos hrem
    rw [readLoop]
    simp only [freadChunk]
    by_cases hfull : ((f.content.drop f.pos).take kBufSize).length = kBufSize
    · rw [if_pos hfull]
      have hlen : (f.content.drop f.pos).length = f.content.length - f.pos :=
        List.length_drop _ _
      have htake : (f.content.drop f.pos).take kBufSize ≠ [] → True := fun _ => trivial
      have hrem1024 : kBufSize ≤ f.content.length - f.pos := by
        have := List.length_take kBufSize (f.content.drop f.pos)
        rw [hfull] at this
        omega
      have := ih ⟨f.content, f.pos + kBufSize⟩ (acc ++ (f.content.drop f.pos).take kBufSize)
        (by simp [kBufSize] at *; omega)
        (by simp [kBufSize] at *; omega)
      simp only [hfull] at this ⊢
      rw [this]
      congr 1
      rw [List.append_assoc]
      congr 1
      have : f.content.drop (f.pos + kBufSize) = (f.content.drop f.pos).drop kBufSize := by
        rw [List.drop_drop]
        try omega
      rw [this, List.take_append_drop]
    · rw [if_neg hfull]
      have hlen : (f.content.drop f.pos).length = f.content.length - f.pos :=
        List.length_drop _ _
      have hshort : f.content.length - f.pos < kBufSize := by
        have := List.length_take kBufSize (f.content.drop f.pos)
        rw [min_def] at this
        by_cases h : kBufSize ≤ (f.content.drop f.pos).length
        · rw [if_pos h] at this; exact absurd this hfull
        · omega
      have htake : (f.content.drop f.pos).take kBufSize = f.content.drop f.pos :=
        List.take_of_length_le (by omega)
      rw [htake]
      congr 1
      cases f with
      | mk content pos =>
        simp at *
        try omega

/-- The whole read of lines 179-183 starting at position 0 returns exactly
the file content. -/
theorem readAll_spec (content : List Char) :
    readAll ⟨content, 0⟩ = (content, ⟨content, content.length⟩) := by
  rw [readAll, readLoop_spec (content.length + 1) ⟨content, 0⟩ []
    (by simp) (by simp)]
  simp

/-- On every non-aborting exit of lines 94-159 the filesystem root is back
to its initial value. -/
theorem withPath_root (w : World) (pid uid gid : Nat) (path : List Char)
    (s : PState) (fp : Option FileHandle) (s1 : PState)
    (h : GetProxyFileWithPath w pid uid gid path s = .ret fp s1) :
    s1.root = s.root := by
  rw [GetProxyFileWithPath, if_neg (procRootPath_fits pid),
    if_neg (procCwdPath_fits pid)] at h
  dsimp only at h
  split_ifs at h <;>
    first
      | exact (FetchResult.noConfusion h)
      | (injection h with hA hB; subst hB; rfl)

set_option maxHeartbeats 2000000 in
/-- On every non-aborting exit of lines 94-159 the credentials are restored
exactly, provided the saved ids equal the initial effective ids. -/
theorem withPath_cred (w : World) (pid uid gid : Nat) (path : List Char)
    (s : PState) (fp : Option FileHandle) (s1 : PState)
    (hsu : s.cred.suid = s.cred.euid) (hsg : s.cred.sgid = s.cred.egid)
    (h : GetProxyFileWithPath w pid uid gid path s = .ret fp s1) :
    s1.cred = s.cred := by
  rw [GetProxyFileWithPath, if_neg (procRootPath_fits pid),
    if_neg (procCwdPath_fits pid)] at h
  dsimp only at h
  split_ifs at h <;>
    first
      | exact (FetchResult.noConfusion h)
      | (injection h with hA hB; subst hB; rfl)
      | (injection h with hA hB; subst hB; exact seteuid_raise_restore s.cred)
      | (injection h with hA hB; subst hB; exact cred_chain_restore s.cred uid gid hsu hsg)

set_option maxHeartbeats 2000000 in
/-- On every non-aborting exit the cwd is either restored or — exactly when
the `chdir` of line 129 succeeded and the `chroot` of line 132 failed — left
at the saved root directory (the `fchdir(fd)` of line 133). -/
theorem withPath_cwd (w : World) (pid uid gid : Nat) (path : List Char)
    (s : PState) (fp : Option FileHandle) (s1 : PState)
    (h : GetProxyFileWithPath w pid uid gid path s = .ret fp s1) :
    s1.cwd = s.cwd ∨ (w.chdirOk = true ∧ w.chrootOk = false ∧ s1.cwd = s.root) := by
  rw [GetProxyFileWithPath, if_neg (procRootPath_fits pid),
    if_neg (procCwdPath_fits pid)] at h
  dsimp only at h
  split_ifs at h <;>
    first
      | exact (FetchResult.noConfusion h)
      | (injection h with hA hB; subst hB; simp_all)

set_option maxHeartbeats 2000000 in
/-- On every non-aborting exit the returned handle is NULL or a
fresh position-0 handle on the file `fopen(path)` yielded. -/
theorem withPath_handle (w : World) (pid uid gid : Nat) (path : List Char)
    (s : PState) (fp : Option FileHandle) (s1 : PState)
    (h : GetProxyFileWithPath w pid uid gid path s = .ret fp s1) :
    fp = none ∨ fp = (w.fileAt path).map fun c => FileHandle.mk c 0 := by
  rw [GetProxyFileWithPath, if_neg (procRootPath_fits pid),
    if_neg (procCwdPath_fits pid)] at h
  dsimp only at h
  split_ifs at h <;>
    first
      | exact (FetchResult.noConfusion h)
      | (injection h with hA hB; subst hA; simp_all)

/-- If the namespace was entered (lines 129-132 both succeeded) and any step
of the reversal of lines 148-152 fails, the call aborts. -/
theorem withPath_abort_rev (w : World) (pid uid gid : Nat) (path : List Char)
    (s : PState)
    (h1 : w.openRootOk = true) (h2 : w.openCwdOk = true)
    (h3 : w.chdirOk = true) (h4 : w.chrootOk = true)
    (h5 : w.fchdirRootOk = false ∨ w.rechrootOk = false ∨ w.fchdirCwdOk = false) :
    GetProxyFileWithPath w pid uid gid path s = .aborted := by
  rw [GetProxyFileWithPath, if_neg (procRootPath_fits pid),
    if_neg (procCwdPath_fits pid)]
  dsimp only
  rw [if_neg (by simp [h1, h2]), if_neg (by simp [h4]),
    if_pos (by exact ⟨h3, h5⟩)]

/-- If the `chdir` of line 129 succeeded, the `chroot` of line 132 failed
and the recovery `fchdir(fd)` of line 133 also fails, the call aborts. -/
theorem withPath_abort_early (w : World) (pid uid gid : Nat) (path : List Char)
    (s : PState)
    (h1 : w.openRootOk = true) (h2 : w.openCwdOk = true)
    (h3 : w.chdirOk = true) (h4 : w.chrootOk = false)
    (h5 : w.fchdirEarlyOk = false) :
    GetProxyFileWithPath w pid uid gid path s = .aborted := by
  rw [GetProxyFileWithPath, if_neg (procRootPath_fits pid),
    if_neg (procCwdPath_fits pid)]
  dsimp only
  rw [if_neg (by simp [h1, h2]), if_pos (by exact ⟨h3, h4⟩), if_pos h5]

set_option maxHeartbeats 1000000 in
/-- When the `chdir` of line 129 fails (`can_chroot` stays false) the whole
namespace mutation is skipped: the candidate path is opened against the
caller's own unchanged namespace and the state is fully restored. -/
theorem withPath_no_chdir (w : World) (pid uid gid : Nat) (path : List Char)
    (s : PState)
    (h1 : w.openRootOk = true) (h2 : w.openCwdOk = true)
    (h3 : w.chdirOk = false)
    (hsu : s.cred.suid = s.cred.euid) (hsg : s.cred.sgid = s.cred.egid) :
    GetProxyFileWithPath w pid uid gid path s =
      .ret ((w.fileAt path).map fun c => FileHandle.mk c 0) s := by
  obtain ⟨c0, r0, d0⟩ := s
  simp only at hsu hsg
  have hcred : seteuid c0.euid (setegid c0.egid (seteuid 0
      (seteuid uid (setegid gid (seteuid 0 c0))))) = c0 :=
    cred_chain_restore c0 uid gid hsu hsg
  rw [GetProxyFileWithPath, if_neg (procRootPath_fits pid),
    if_neg (procCwdPath_fits pid)]
  dsimp only
  split_ifs <;> simp_all

/-- `GetProxyFileInternal` is lines 94-159 applied to the candidate path:
the scanner leaves the state unchanged and the fallback format always fits
the buffer. -/
theorem gpfi_eq_withPath (w : World) (pid uid gid : Nat) (s : PState) :
    GetProxyFileInternal w pid uid gid s =
      GetProxyFileWithPath w pid uid gid (candidatePath w pid uid) s := by
  cases henv : envValue w pid PATH_MAX with
  | some p => simp [GetProxyFileInternal, envScanState_id, candidatePath, henv]
  | none =>
    simp [GetProxyFileInternal, envScanState_id, candidatePath, henv,
      fallbackPath_fits uid]

/-- A record without any `X509_USER_PROXY` entry looks up to nothing. -/
theorem envLookupRef_none (pl : Nat) :
    ∀ es : List (List Char), (∀ e ∈ es, entryKey e ≠ proxyKey) →
      envLookupRef pl es = none := by
  intro es
  induction es with
  | nil => intro _; rfl
  | cons e es ih =>
    intro h
    rw [envLookupRef, if_neg (h e (List.mem_cons_self e es))]
    exact ih fun x hx => h x (List.mem_cons_of_mem e hx)

/-- Every non-aborting fetch returns NULL or a fresh position-0 handle on
the candidate file. -/
theorem gpfi_handle (w : World) (pid uid gid : Nat) (s : PState)
    (fp : Option FileHandle) (s1 : PState)
    (h : GetProxyFileInternal w pid uid gid s = .ret fp s1) :
    fp = none ∨ fp = (w.fileAt (candidatePath w pid uid)).map fun c => FileHandle.mk c 0 := by
  rw [gpfi_eq_withPath] at h
  exact withPath_handle w pid uid gid _ s fp s1 h

/-- Decomposition of a successful `GetX509Proxy`: the candidate file was
opened, the returned handle is that file rewound to position 0, and the
caller's string holds exactly the file content. -/
theorem gx_success (w : World) (pid uid gid : Nat) (proxy : List Char) (s : PState)
    (f : FileHandle) (p : List Char) (s1 : PState)
    (h : GetX509Proxy w pid uid gid proxy s = .ret (some f) p s1) :
    ∃ c, w.fileAt (candidatePath w pid uid) = some c ∧ f = ⟨c, 0⟩ ∧ p = c := by
  rw [GetX509Proxy] at h
  cases hg : GetProxyFileInternal w pid uid gid s with
  | aborted => rw [hg] at h; exact (ProxyResult.noConfusion h)
  | ret fp s2 =>
    rw [hg] at h
    cases fp with
    | none =>
      dsimp only at h
      injection h with h1 h2 h3
      exact (Option.noConfusion h1)
    | some f0 =>
      dsimp only at h
      rcases gpfi_handle w pid uid gid s (some f0) s2 hg with hbad | hmap
      · exact (Option.noConfusion hbad)
      · cases hc : w.fileAt (candidatePath w pid uid) with
        | none => rw [hc] at hmap; exact (Option.noConfusion hmap)
        | some c =>
          rw [hc] at hmap
          have hf0 : f0 = ⟨c, 0⟩ := by
            injection hmap with hmap'
          subst hf0
          rw [readAll_spec c] at h
          injection h with h1 h2 h3
          refine ⟨c, rfl, ?_, h2.symm⟩
          have : rewind ⟨c, c.length⟩ = (⟨c, 0⟩ : FileHandle) := rfl
          rw [this] at h1
          exact (Option.some.inj h1).symm

/-- C1 (counterexample): the claim promises that every well-formed
`X509_USER_PROXY=<path>` entry with `<path>` shorter than PATH_MAX (4096)
is stored exactly; but a path of length 4095, although shorter than
PATH_MAX, is rejected by the `idx >= path_len - 1` bound of line 61, so the
scanner fails on it. -/
theorem c1_counterexample :
    (List.replicate 4095 'a').length < PATH_MAX ∧
    scanEnvFile PATH_MAX (flattenEnv [patEq ++ List.replicate 4095 'a']) = none := by
  constructor
  · rw [List.length_replicate]
    norm_num [PATH_MAX]
  · have hv : NUL ∉ List.replicate 4095 'a' := by
      intro h
      exact absurd (List.eq_of_mem_replicate h) (by decide)
    rw [scanEnvFile_step, flattenEnv, flattenEnv, List.append_assoc,
      envScan_key, envScan_value PATH_MAX _ hv]
    rw [if_neg]
    simp only [List.length_nil, List.length_replicate, PATH_MAX]
    omega

/-- C1 (amended): if the target's environment record consists of well-formed
entries, none of the entries before the `X509_USER_PROXY=<path>` entry has
that key, the path contains no NUL and is of length at most PATH_MAX - 2
(i.e. shorter than PATH_MAX - 1), then the scanner succeeds and returns
`<path>` exactly, byte for byte, whatever the entries before or after it
are. -/
theorem c1_exact_path (pre post : List (List Char)) (v : List Char)
    (hpre : ∀ e ∈ pre, wfEntry e ∧ entryKey e ≠ proxyKey)
    (hv : NUL ∉ v) (hlen : v.length ≤ PATH_MAX - 2) :
    scanEnvFile PATH_MAX (flattenEnv (pre ++ (patEq ++ v) :: post)) = some v := by
  rw [flattenEnv_append, scanEnvFile_step,
    envScan_skip_entries PATH_MAX pre hpre, flattenEnv, List.append_assoc,
    envScan_key, envScan_value PATH_MAX _ hv]
  rw [if_pos (by simp [PATH_MAX] at hlen ⊢; omega)]
  simp

/-- C1 (witness): a concrete record with a preceding and a following entry,
whose stored path is exactly the entry's value. -/
theorem c1_witness :
    scanEnvFile PATH_MAX (flattenEnv
      (["HOME=/h".toList] ++ (patEq ++ "/tmp/p".toList) :: ["A=b".toList])) =
      some "/tmp/p".toList :=
  c1_exact_path ["HOME=/h".toList] ["A=b".toList] "/tmp/p".toList
    (by decide) (by decide) (by decide)

/-- C9: on well-formed records the byte-wise matcher behaves exactly like
the reference tokenizer `envLookupRef`: only an entry whose key is exactly
`X509_USER_PROXY` matches (a key merely containing or ending with the name
does not), and the first such entry's value is the one returned. -/
theorem c9_exact_first_match (pl : Nat) (entries : List (List Char))
    (h : ∀ e ∈ entries, wfEntry e) :
    scanEnvFile pl (flattenEnv entries) = envLookupRef pl entries :=
  scan_eq_lookup pl entries h

/-- C9 (witness): a record with a key that merely ends in the name and two
exact matches; the scan agrees with the tokenizer and yields the first
match's value. -/
theorem c9_witness :
    scanEnvFile 4096 (flattenEnv
      ["AX509_USER_PROXY=/evil".toList, "X509_USER_PROXY=/ok".toList,
       "X509_USER_PROXY=/later".toList]) =
      envLookupRef 4096
        ["AX509_USER_PROXY=/evil".toList, "X509_USER_PROXY=/ok".toList,
         "X509_USER_PROXY=/later".toList] ∧
    envLookupRef 4096
        ["AX509_USER_PROXY=/evil".toList, "X509_USER_PROXY=/ok".toList,
         "X509_USER_PROXY=/later".toList] = some "/ok".toList :=
  ⟨c9_exact_first_match 4096 _ (by decide), by decide⟩

/-- C5: a value at least PATH_MAX - 1 bytes long cannot be stored: the
scanner returns the recoverable failure, so no truncated path is ever used
and `GetProxyFileInternal`'s candidate path is the fallback. -/
theorem c5_too_long_is_failure (w : World) (pid uid : Nat)
    (pre post : List (List Char)) (v : List Char)
    (henv : w.environ = some (flattenEnv (pre ++ (patEq ++ v) :: post)))
    (hpre : ∀ e ∈ pre, wfEntry e ∧ entryKey e ≠ proxyKey)
    (hv : NUL ∉ v) (hlen : PATH_MAX - 1 ≤ v.length) :
    envValue w pid PATH_MAX = none ∧ candidatePath w pid uid = fallbackPath uid := by
  have hscan : scanEnvFile PATH_MAX (flattenEnv (pre ++ (patEq ++ v) :: post)) = none := by
    rw [flattenEnv_append, scanEnvFile_step,
      envScan_skip_entries PATH_MAX pre hpre, flattenEnv, List.append_assoc,
      envScan_key, envScan_value PATH_MAX _ hv]
    rw [if_neg (by simp [PATH_MAX] at hlen ⊢; omega)]
  have hev : envValue w pid PATH_MAX = none := by
    rw [envValue, if_neg (procEnvironPath_fits pid), henv]
    dsimp only
    exact hscan
  exact ⟨hev, by rw [candidatePath, hev]⟩

/-- C5 (witness): the concrete 4095-byte value of `wLongVal` is rejected
and the fallback is used. -/
theorem c5_witness :
    envValue wLongVal 1 PATH_MAX = none ∧
    candidatePath wLongVal 1 9 = fallbackPath 9 :=
  c5_too_long_is_failure wLongVal 1 9 [] [] (List.replicate 4095 'b') rfl
    (by simp)
    (fun h => absurd (List.eq_of_mem_replicate h) (by decide))
    (by rw [List.length_replicate]; norm_num [PATH_MAX])

/-- C2 (counterexample): when the `chdir` into the target's cwd succeeds
but the `chroot` fails, the call returns recoverably, yet the working
directory is left at the caller's original root directory (the `fchdir(fd)`
of line 133 uses the root descriptor, not the cwd descriptor `fd2`), so the
cwd is not identical to its value before the call. -/
theorem c2_counterexample :
    GetProxyFileInternal wChrootFail 1 1000 500 state0 =
      .ret none ⟨cred0, 7, 7⟩ ∧ state0.cwd ≠ 7 := by
  constructor
  · decide
  · decide

set_option maxHeartbeats 1000000 in
/-- C2 (amended): for a caller whose saved ids equal its effective ids, on
every non-aborting exit of `GetProxyFileFromEnv` the state is untouched,
and on every non-aborting exit of `GetProxyFileInternal` the effective uid,
effective gid and filesystem root are identical to their values before the
call; the cwd is also identical except on the path where the chdir into the
target's cwd succeeded and the subsequent chroot failed, where the final
cwd is the caller's original root directory. -/
theorem c2_state_restored :
    (∀ (w : World) (pid pl : Nat) (s : PState) (r : Option (List Char)) (s1 : PState),
        GetProxyFileFromEnv w pid pl s = (r, s1) → s1 = s) ∧
    (∀ (w : World) (pid uid gid : Nat) (s : PState) (fp : Option FileHandle) (s1 : PState),
        s.cred.suid = s.cred.euid → s.cred.sgid = s.cred.egid →
        GetProxyFileInternal w pid uid gid s = .ret fp s1 →
        s1.cred.euid = s.cred.euid ∧ s1.cred.egid = s.cred.egid ∧
          s1.root = s.root ∧
          (s1.cwd = s.cwd ∨ (w.chdirOk = true ∧ w.chrootOk = false ∧ s1.cwd = s.root))) := by
  constructor
  · intro w pid pl s r s1 h
    rw [GetProxyFileFromEnv] at h
    injection h with h1 h2
    rw [← h2, envScanState_id]
  · intro w pid uid gid s fp s1 hsu hsg h
    rw [gpfi_eq_withPath] at h
    have hcred := withPath_cred w pid uid gid _ s fp s1 hsu hsg h
    refine ⟨by rw [hcred], by rw [hcred], withPath_root w pid uid gid _ s fp s1 h,
      withPath_cwd w pid uid gid _ s fp s1 h⟩

/-- C2 (witness): the scanner leaves the sample state untouched, and a full
successful fetch restores effective uid, gid, root and cwd. -/
theorem c2_witness :
    state0 = state0 ∧
    (state0.cred.euid = state0.cred.euid ∧ state0.cred.egid = state0.cred.egid ∧
      state0.root = state0.root ∧
      (state0.cwd = state0.cwd ∨
        (wEnvNone.chdirOk = true ∧ wEnvNone.chrootOk = false ∧ state0.cwd = state0.root))) :=
  ⟨c2_state_restored.1 wEnvNone 1 PATH_MAX state0 none state0 (by decide),
   c2_state_restored.2 wEnvNone 1 1000 500 state0 (some ⟨['a', 'b'], 0⟩) state0
     rfl rfl (by decide)⟩

/-- C3 (counterexample): the claim promises that whenever the
chroot/chdir into the target's namespace is not permitted the fetch still
opens the candidate path; but when the chdir succeeds and only the chroot
fails, the call returns NULL (lines 132-139) even though the candidate file
exists, so the whole call does fail. -/
theorem c3_counterexample :
    wChrootFail.fileAt (candidatePath wChrootFail 1 1001) = some ['a', 'b'] ∧
    GetProxyFileInternal wChrootFail 1 1001 501 state0 = .ret none ⟨cred0, 7, 7⟩ := by
  constructor
  · decide
  · decide

/-- C3 (amended): when the `chdir` into the target's cwd fails (the
`can_chroot = false` case of lines 129-131) and the caller's saved ids
equal its effective ids, the fetch does not fail: the namespace mutation is
skipped, the candidate path is opened in the caller's own unchanged
namespace, and the state (privilege, root, cwd) is returned exactly as it
was; if instead the chdir succeeds and the chroot itself fails, the call
returns the recoverable NULL. -/
theorem c3_degrade (w : World) (pid uid gid : Nat) (s : PState)
    (h1 : w.openRootOk = true) (h2 : w.openCwdOk = true) (h3 : w.chdirOk = false)
    (hsu : s.cred.suid = s.cred.euid) (hsg : s.cred.sgid = s.cred.egid) :
    GetProxyFileInternal w pid uid gid s =
      .ret ((w.fileAt (candidatePath w pid uid)).map fun c => FileHandle.mk c 0) s := by
  rw [gpfi_eq_withPath]
  exact withPath_no_chdir w pid uid gid _ s h1 h2 h3 hsu hsg

/-- C3 (witness): with `chdir` failing, the sample fetch returns the
candidate file opened in the unchanged namespace and the untouched state. -/
theorem c3_witness :
    GetProxyFileInternal wChdirFail 1 1000 500 state0 =
      .ret ((wChdirFail.fileAt (candidatePath wChdirFail 1 1000)).map
        fun c => FileHandle.mk c 0) state0 :=
  c3_degrade wChdirFail 1 1000 500 state0 rfl rfl rfl rfl rfl

/-- C4: a non-aborting return always carries the original root (a
"returned with changed root" state is unreachable), and whenever the root
change was performed and any step of its reversal fails — either the
three-step reversal of lines 148-152 or the early `fchdir(fd)` recovery of
line 133 — the process aborts. -/
theorem c4_root_never_leaked :
    (∀ (w : World) (pid uid gid : Nat) (s : PState) (fp : Option FileHandle) (s1 : PState),
        GetProxyFileInternal w pid uid gid s = .ret fp s1 → s1.root = s.root) ∧
    (∀ (w : World) (pid uid gid : Nat) (s : PState),
        w.openRootOk = true → w.openCwdOk = true → w.chdirOk = true → w.chrootOk = true →
        (w.fchdirRootOk = false ∨ w.rechrootOk = false ∨ w.fchdirCwdOk = false) →
        GetProxyFileInternal w pid uid gid s = .aborted) ∧
    (∀ (w : World) (pid uid gid : Nat) (s : PState),
        w.openRootOk = true → w.openCwdOk = true → w.chdirOk = true → w.chrootOk = false →
        w.fchdirEarlyOk = false →
        GetProxyFileInternal w pid uid gid s = .aborted) := by
  refine ⟨?_, ?_, ?_⟩
  · intro w pid uid gid s fp s1 h
    rw [gpfi_eq_withPath] at h
    exact withPath_root w pid uid gid _ s fp s1 h
  · intro w pid uid gid s h1 h2 h3 h4 h5
    rw [gpfi_eq_withPath]
    exact withPath_abort_rev w pid uid gid _ s h1 h2 h3 h4 h5
  · intro w pid uid gid s h1 h2 h3 h4 h5
    rw [gpfi_eq_withPath]
    exact withPath_abort_early w pid uid gid _ s h1 h2 h3 h4 h5

/-- C4 (witness): a successful fetch keeps the root; a failing reversal
aborts, both for the late three-step reversal and for the early
`fchdir(fd)` recovery. -/
theorem c4_witness :
    state0.root = state0.root ∧
    GetProxyFileInternal wRevFail 1 1000 500 state0 = .aborted ∧
    GetProxyFileInternal wEarlyAbort 1 1000 500 state0 = .aborted :=
  ⟨c4_root_never_leaked.1 wEnvNone 1 1000 500 state0 (some ⟨['a', 'b'], 0⟩) state0
      (by decide),
   c4_root_never_leaked.2.1 wRevFail 1 1000 500 state0 rfl rfl rfl rfl (Or.inl rfl),
   c4_root_never_leaked.2.2 wEarlyAbort 1 1000 500 state0 rfl rfl rfl rfl rfl⟩

/-- C6 (counterexample): the fallback template is instantiated with the
`uid_t` value pushed through `%d`, which reinterprets it as a signed 32-bit
integer; for `targetUserId = 4294967295` the candidate path is
`/tmp/x509up_u-1`, not the template instantiated with the numeric id. -/
theorem c6_counterexample :
    candidatePath wNoFile 1 4294967295 = "/tmp/x509up_u-1".toList ∧
    candidatePath wNoFile 1 4294967295 ≠ "/tmp/x509up_u4294967295".toList := by
  constructor
  · decide
  · decide

/-- C6 (amended): whenever the variable is absent from a well-formed
environment record or the record is unreadable, and `targetUserId` is below
`2^31`, the candidate path equals the fallback template instantiated with
the numeric `targetUserId` in decimal. -/
theorem c6_fallback (w : World) (pid uid : Nat) (hu : uid < 2147483648)
    (henv : w.environ = none ∨ ∃ es, w.environ = some (flattenEnv es) ∧
      (∀ e ∈ es, wfEntry e) ∧ (∀ e ∈ es, entryKey e ≠ proxyKey)) :
    candidatePath w pid uid = "/tmp/x509up_u".toList ++ Nat.toDigits 10 uid := by
  have hev : envValue w pid PATH_MAX = none := by
    rw [envValue, if_neg (procEnvironPath_fits pid)]
    rcases henv with h | ⟨es, h, hwf, hk⟩
    · rw [h]
    · rw [h]
      dsimp only
      rw [scan_eq_lookup PATH_MAX es hwf]
      exact envLookupRef_none PATH_MAX es hk
  rw [candidatePath, hev]
  dsimp only
  rw [fallbackPath, fmtD32]
  rw [Nat.mod_eq_of_lt (by omega)]
  rw [if_pos hu]

/-- C6 (witness): an unreadable environ with `targetUserId = 1000` yields
the path `/tmp/x509up_u1000`. -/
theorem c6_witness :
    candidatePath wNoFile 1 1000 = "/tmp/x509up_u".toList ++ Nat.toDigits 10 1000 :=
  c6_fallback wNoFile 1 1000 (by norm_num) (Or.inl rfl)

/-- C7: a successful `GetX509Proxy` always hands back a buffer holding the
full content of the opened file — a partially-filled buffer is
impossible; the only other outcome is the explicit NULL. -/
theorem c7_full_contents (w : World) (pid uid gid : Nat) (proxy : List Char)
    (s : PState) (f : FileHandle) (p : List Char) (s1 : PState)
    (h : GetX509Proxy w pid uid gid proxy s = .ret (some f) p s1) :
    p = f.content := by
  obtain ⟨c, _, hf, hp⟩ := gx_success w pid uid gid proxy s f p s1 h
  rw [hp, hf]

/-- C7 (witness): the sample fetch returns the two-byte file content in
full. -/
theorem c7_witness : (['a', 'b'] : List Char) = (⟨['a', 'b'], 0⟩ : FileHandle).content :=
  c7_full_contents wEnvNone 1 1000 500 ['q'] state0 ⟨['a', 'b'], 0⟩ ['a', 'b'] state0
    (by decide)

/-- C8: the handle returned by a successful `GetX509Proxy` is positioned at
the start of the file, and re-reading it from there yields exactly the
returned buffer. -/
theorem c8_rewind_contract (w : World) (pid uid gid : Nat) (proxy : List Char)
    (s : PState) (f : FileHandle) (p : List Char) (s1 : PState)
    (h : GetX509Proxy w pid uid gid proxy s = .ret (some f) p s1) :
    f.pos = 0 ∧ (readAll f).1 = p := by
  obtain ⟨c, _, hf, hp⟩ := gx_success w pid uid gid proxy s f p s1 h
  subst hf hp
  exact ⟨rfl, by rw [readAll_spec]⟩

/-- C8 (witness): the sample returned handle is at position 0 and re-reads
to the returned buffer. -/
theorem c8_witness :
    (⟨['a', 'b'], 0⟩ : FileHandle).pos = 0 ∧
    (readAll (⟨['a', 'b'], 0⟩ : FileHandle)).1 = ['a', 'b'] :=
  c8_rewind_contract wEnvNone 1 1000 500 ['q'] state0 ⟨['a', 'b'], 0⟩ ['a', 'b'] state0
    (by decide)

/-- C10: when `GetX509Proxy` returns NULL, the caller's `proxy` string is
returned exactly as supplied — it is cleared and filled only after a handle
was obtained (line 175 runs after the NULL check of line 169). -/
theorem c10_proxy_untouched (w : World) (pid uid gid : Nat) (proxy : List Char)
    (s : PState) (p : List Char) (s1 : PState)
    (h : GetX509Proxy w pid uid gid proxy s = .ret none p s1) :
    p = proxy := by
  rw [GetX509Proxy] at h
  cases hg : GetProxyFileInternal w pid uid gid s with
  | aborted => rw [hg] at h; exact (ProxyResult.noConfusion h)
  | ret fp s2 =>
    rw [hg] at h
    cases fp with
    | none =>
      dsimp only at h
      injection h with h1 h2 h3
      exact h2.symm
    | some f0 =>
      dsimp only at h
      injection h with h1 h2 h3
      exact (Option.noConfusion h1)

/-- C10 (witness): a fetch that finds no file hands the supplied string
back unchanged. -/
theorem c10_witness : (['q'] : List Char) = ['q'] :=
  c10_proxy_untouched wNoFile 1 1000 500 ['q'] state0 ['q'] state0 (by decide)
